import Mathlib

/-!
Shallow embedding of the AppInstance operator
(`internal/controller/appinstance_controller.go`, `api/v1alpha1/appinstance_types.go`).

The controller reconciles an `AppInstance` (desired replica count `Spec.Size`,
observed pod names `Status.Nodes`) against a store of pods.  One reconciliation
pass is `Reconcile`: fetch the instance, list the pods labelled `app=<name>` in
the request namespace, scale (create or delete pods) and update the status.

The external store and its fallible operations are modelled by an explicit
`Client` record: the result of the initial Get, and boolean oracles saying
whether each List / Create / Delete / status-Update call succeeds.  A pass is a
pure function of the client and the pod store; its observable trace (final
store, pods created and deleted in order, whether a List happened, the status
value submitted and the one persisted, and the returned error) is a
`PassResult`.  `Option` on results models a Go panic (slice index out of
range); `none` is a panic.
-/

namespace Operator

/-- A container of a pod spec; the fields `createPods` sets
(`corev1.Container`: Name, Image, Command). -/
structure Container where
  name : String
  image : String
  command : List String
deriving DecidableEq

/-- A pod, with the metadata the controller reads or writes:
`ObjectMeta.Name`, `ObjectMeta.Namespace`, the `app` label used as the
membership query, the controller owner reference, and the pod spec's
containers. -/
structure Pod where
  name : String
  ns : String
  appLabel : String
  owner : Option String
  containers : List Container
deriving DecidableEq

/-- `AppInstance`: `Spec.Size` (Go `int`, modelled as `Int`; note neither the
Go type nor the CRD schema restricts it to be non-negative) and
`Status.Nodes`. -/
structure AppInstance where
  name : String
  size : Int
  statusNodes : List String
deriving DecidableEq

/-- Outcome of the initial `r.Get` on the `AppInstance`:
`errors.IsNotFound` is distinguished from any other failure. -/
inductive GetError where
  | notFound
  | other
deriving DecidableEq

/-- The error a pass returns (`Reconcile`'s second return value). -/
inductive PassError where
  | getFailed
  | listFailed
  | createFailed (p : Pod)
  | deleteFailed (p : Pod)
  | statusUpdateFailed
deriving DecidableEq

/-- The external store's behaviour during one pass: the Get result and
success oracles for List, each Create, each Delete, and the status Update. -/
structure Client where
  getApp : Except GetError AppInstance
  listOk : Bool
  createOk : Pod → Bool
  deleteOk : Pod → Bool
  statusOk : Bool

/-- `fmt.Sprintf("%s-pod-%d", app.Name, i)`. -/
def podName (appName : String) (i : Int) : String :=
  appName ++ "-pod-" ++ toString i

/-- The container literal in `createPods`. -/
def busybox : Container :=
  { name := "busybox", image := "busybox", command := ["sleep", "3600"] }

/-- The pod object built in the body of the `createPods` loop. -/
def mkPod (appName reqNs : String) (i : Int) : Pod :=
  { name := podName appName i
    ns := reqNs
    appLabel := appName
    owner := some appName
    containers := [busybox] }

/-- `getPodList`: `r.List` with `client.InNamespace(req.Namespace)` and
`client.MatchingLabels{"app": app.Name}`. -/
def getPodList (reqNs appName : String) (cluster : List Pod) : List Pod :=
  cluster.filter (fun p => p.ns == reqNs && p.appLabel == appName)

/-- The loop of `createPods`, with the iteration count as fuel:
`for i := currentSize; i < desiredSize; i++`.  Each step builds the pod for
index `i` and submits `r.Create`; on failure the loop returns the error at
once.  Returns the final store, the pods created in order, and the error. -/
def createPodsAux (cl : Client) (appName reqNs : String) :
    Nat → Int → List Pod → List Pod × List Pod × Option PassError
  | 0, _, store => (store, [], none)
  | fuel + 1, i, store =>
    let pod := mkPod appName reqNs i
    if cl.createOk pod then
      let r := createPodsAux cl appName reqNs fuel (i + 1) (store ++ [pod])
      (r.1, pod :: r.2.1, r.2.2)
    else
      (store, [], some (PassError.createFailed pod))

/-- `createPods`: the loop runs for the indices
`currentSize, …, desiredSize - 1`. -/
def createPods (cl : Client) (appName reqNs : String)
    (currentSize desiredSize : Int) (store : List Pod) :
    List Pod × List Pod × Option PassError :=
  createPodsAux cl appName reqNs (desiredSize - currentSize).toNat currentSize store

/-- `r.Delete(ctx, &pod)` deletes the object with this name in this
namespace. -/
def deleteMatch (p q : Pod) : Bool :=
  q.name == p.name && q.ns == p.ns

/-- Effect of one successful Delete on the store. -/
def applyDelete (store : List Pod) (p : Pod) : List Pod :=
  store.filter (fun q => !(deleteMatch p q))

/-- The loop of `deletePods`, with the iteration count as fuel:
`for i := currentSize - 1; i >= desiredSize; i--`, deleting
`podList.Items[i]` each step and returning at once on a Delete error.
An out-of-range index is a Go panic, modelled as `none`. -/
def deletePodsAux (cl : Client) (items : List Pod) :
    Nat → Int → List Pod → Option (List Pod × List Pod × Option PassError)
  | 0, _, store => some (store, [], none)
  | fuel + 1, i, store =>
    if i < 0 then none
    else
      match items[i.toNat]? with
      | none => none
      | some pod =>
        if cl.deleteOk pod then
          match deletePodsAux cl items fuel (i - 1) (applyDelete store pod) with
          | none => none
          | some r => some (r.1, pod :: r.2.1, r.2.2)
        else
          some (store, [], some (PassError.deleteFailed pod))

/-- `deletePods`: the loop runs for the indices
`currentSize - 1` down to `desiredSize`. -/
def deletePods (cl : Client) (items : List Pod)
    (currentSize desiredSize : Int) (store : List Pod) :
    Option (List Pod × List Pod × Option PassError) :=
  deletePodsAux cl items (currentSize - desiredSize).toNat (currentSize - 1) store

/-- `scalePods`: `desiredSize := app.Spec.Size`,
`currentSize := len(podList.Items)`; grow when current < desired, shrink when
current > desired, otherwise do nothing.  Returns the final store, the pods
created, the pods deleted, and the error. -/
def scalePods (cl : Client) (reqNs : String) (app : AppInstance)
    (podList : List Pod) (store : List Pod) :
    Option (List Pod × List Pod × List Pod × Option PassError) :=
  let desiredSize := app.size
  let currentSize : Int := podList.length
  if currentSize < desiredSize then
    let r := createPods cl app.name reqNs currentSize desiredSize store
    some (r.1, r.2.1, [], r.2.2)
  else if currentSize > desiredSize then
    match deletePods cl podList currentSize desiredSize store with
    | none => none
    | some r => some (r.1, [], r.2.1, r.2.2)
  else
    some (store, [], [], none)

/-- The observable trace of one `Reconcile` pass. -/
structure PassResult where
  cluster : List Pod
  creates : List Pod
  deletes : List Pod
  listed : Bool
  statusAttempt : Option (List String)
  persisted : Option (List String)
  err : Option PassError
deriving DecidableEq

/-- `Reconcile`: fetch the `AppInstance` (NotFound ends the pass without
error; any other Get failure is returned), list the pods, scale, and — only
when scaling returned no error — run `updateStatus`, which sets
`Status.Nodes` to the names of the pods of the list fetched *before* scaling
and submits the status update. -/
def reconcile (cl : Client) (reqNs : String) (cluster : List Pod) :
    Option PassResult :=
  match cl.getApp with
  | Except.error GetError.notFound =>
      some { cluster := cluster, creates := [], deletes := [], listed := false,
             statusAttempt := none, persisted := none, err := none }
  | Except.error GetError.other =>
      some { cluster := cluster, creates := [], deletes := [], listed := false,
             statusAttempt := none, persisted := none,
             err := some PassError.getFailed }
  | Except.ok app =>
    if cl.listOk then
      let podList := getPodList reqNs app.name cluster
      match scalePods cl reqNs app podList cluster with
      | none => none
      | some (cluster2, created, deleted, some e) =>
          some { cluster := cluster2, creates := created, deletes := deleted,
                 listed := true, statusAttempt := none, persisted := none,
                 err := some e }
      | some (cluster2, created, deleted, none) =>
          let podNames := podList.map Pod.name
          some { cluster := cluster2, creates := created, deletes := deleted,
                 listed := true, statusAttempt := some podNames,
                 persisted := if cl.statusOk then some podNames else none,
                 err := if cl.statusOk then none
                        else some PassError.statusUpdateFailed }
    else
      some { cluster := cluster, creates := [], deletes := [], listed := true,
             statusAttempt := none, persisted := none,
             err := some PassError.listFailed }

/-- A client for which every store operation succeeds and the Get returns
`app`. -/
def allOkClient (app : AppInstance) : Client :=
  { getApp := Except.ok app, listOk := true,
    createOk := fun _ => true, deleteOk := fun _ => true, statusOk := true }

/-! ### Loop characterizations -/

/-- Length of the longest prefix of a batch on which `ok` holds: the point at
which an abort-on-first-failure loop stops. -/
def okPrefixLen (ok : Pod → Bool) : List Pod → Nat
  | [] => 0
  | p :: ps => if ok p then okPrefixLen ok ps + 1 else 0

/-- The pods the create loop attempts, in order, starting at index `i`. -/
def createBatch (appName reqNs : String) : Int → Nat → List Pod
  | _, 0 => []
  | i, fuel + 1 => mkPod appName reqNs i :: createBatch appName reqNs (i + 1) fuel

/-- The pods the delete loop visits, in order: `items[i]`, `items[i-1]`, …,
for `fuel` steps (assuming all indices in range). -/
def visitSeg (items : List Pod) (i : Int) (fuel : Nat) : List Pod :=
  ((items.take (i.toNat + 1)).drop (i.toNat + 1 - fuel)).reverse

theorem okPrefixLen_le (ok : Pod → Bool) : ∀ l : List Pod, okPrefixLen ok l ≤ l.length := by
  intro l
  induction l with
  | nil => simp [okPrefixLen]
  | cons p ps ih =>
    simp only [okPrefixLen, List.length_cons]
    split <;> omega

theorem okPrefixLen_eq_length (ok : Pod → Bool) :
    ∀ l : List Pod, (∀ p ∈ l, ok p = true) → okPrefixLen ok l = l.length := by
  intro l
  induction l with
  | nil => simp [okPrefixLen]
  | cons p ps ih =>
    intro h
    simp only [okPrefixLen, List.length_cons]
    rw [h p (by simp), if_pos rfl, ih (fun q hq => h q (by simp [hq]))]

theorem okPrefixLen_take (ok : Pod → Bool) :
    ∀ l : List Pod, ∀ p ∈ l.take (okPrefixLen ok l), ok p = true := by
  intro l
  induction l with
  | nil => simp
  | cons p ps ih =>
    intro q hq
    simp only [okPrefixLen] at hq
    by_cases h : ok p = true
    · rw [if_pos h] at hq
      simp only [List.take_succ_cons, List.mem_cons] at hq
      rcases hq with hq | hq
      · exact hq ▸ h
      · exact ih q hq
    · rw [if_neg h] at hq
      simp at hq

theorem okPrefixLen_head (ok : Pod → Bool) :
    ∀ l : List Pod, ∀ p, (l.drop (okPrefixLen ok l)).head? = some p → ok p = false := by
  intro l
  induction l with
  | nil => simp
  | cons q qs ih =>
    intro p hp
    simp only [okPrefixLen] at hp
    by_cases h : ok q = true
    · rw [if_pos h] at hp
      simp only [List.drop_succ_cons] at hp
      exact ih p hp
    · rw [if_neg h] at hp
      simp only [List.drop_zero, List.head?_cons, Option.some.injEq] at hp
      subst hp
      exact Bool.eq_false_iff.mpr h

theorem okPrefixLen_append_fail (ok : Pod → Bool) :
    ∀ l₁ : List Pod, ∀ p : Pod, ∀ l₂ : List Pod,
      (∀ q ∈ l₁, ok q = true) → ok p = false →
      okPrefixLen ok (l₁ ++ p :: l₂) = l₁.length := by
  intro l₁
  induction l₁ with
  | nil =>
    intro p l₂ _ hp
    simp [okPrefixLen, hp]
  | cons q qs ih =>
    intro p l₂ h hp
    simp only [List.cons_append, okPrefixLen, List.length_cons, List.append_eq]
    rw [if_pos (h q (by simp)), ih p l₂ (fun r hr => h r (by simp [hr])) hp]

theorem createBatch_length (a ns : String) :
    ∀ fuel : Nat, ∀ i : Int, (createBatch a ns i fuel).length = fuel := by
  intro fuel
  induction fuel with
  | zero => intro i; simp [createBatch]
  | succ n ih => intro i; simp [createBatch, ih]

theorem createBatch_append (a ns : String) :
    ∀ m n : Nat, ∀ i : Int,
      createBatch a ns i (m + n) =
        createBatch a ns i m ++ createBatch a ns (i + m) n := by
  intro m
  induction m with
  | zero => intro n i; simp [createBatch]
  | succ m ih =>
    intro n i
    have : m + 1 + n = (m + n) + 1 := by omega
    rw [this]
    simp only [createBatch, List.cons_append, ih n (i + 1)]
    have : i + 1 + (m : Int) = i + ((m : Nat) + 1 : Nat) := by push_cast; ring
    rw [this]

theorem createBatch_map_name (a ns : String) :
    ∀ fuel : Nat, ∀ i : Int,
      (createBatch a ns i fuel).map Pod.name =
        (List.range fuel).map (fun j : Nat => podName a (i + (j : Int))) := by
  intro fuel
  induction fuel with
  | zero => intro i; simp [createBatch]
  | succ n ih =>
    intro i
    rw [List.range_succ_eq_map]
    simp only [createBatch, List.map_cons, ih (i + 1), List.map_map]
    refine List.cons_eq_cons.mpr ⟨?_, ?_⟩
    · have h0 : i + ((0 : Nat) : Int) = i := by push_cast; ring
      rw [h0]
      rfl
    · apply List.map_congr_left
      intro j _
      simp only [Function.comp_apply]
      congr 1
      push_cast
      ring

theorem createBatch_fields (a ns : String) :
    ∀ fuel : Nat, ∀ i : Int, ∀ p ∈ createBatch a ns i fuel,
      p.ns = ns ∧ p.appLabel = a := by
  intro fuel
  induction fuel with
  | zero => intro i p hp; simp [createBatch] at hp
  | succ n ih =>
    intro i p hp
    simp only [createBatch, List.mem_cons] at hp
    rcases hp with hp | hp
    · subst hp; exact ⟨rfl, rfl⟩
    · exact ih (i + 1) p hp

/-- The create loop applies exactly the longest all-succeeding prefix of its
batch, keeps those pods in the store, and reports the first failing create. -/
theorem createPodsAux_eq (cl : Client) (a ns : String) :
    ∀ fuel : Nat, ∀ i : Int, ∀ store : List Pod,
      createPodsAux cl a ns fuel i store =
        (store ++ (createBatch a ns i fuel).take
            (okPrefixLen cl.createOk (createBatch a ns i fuel)),
         (createBatch a ns i fuel).take
            (okPrefixLen cl.createOk (createBatch a ns i fuel)),
         ((createBatch a ns i fuel).drop
            (okPrefixLen cl.createOk (createBatch a ns i fuel))).head?.map
            PassError.createFailed) := by
  intro fuel
  induction fuel with
  | zero => intro i store; simp [createPodsAux, createBatch, okPrefixLen]
  | succ n ih =>
    intro i store
    simp only [createPodsAux, createBatch, okPrefixLen]
    by_cases h : cl.createOk (mkPod a ns i) = true
    · rw [if_pos h, if_pos h, ih (i + 1) (store ++ [mkPod a ns i])]
      simp [List.append_assoc]
    · rw [if_neg h, if_neg h]
      simp

theorem visitSeg_zero (items : List Pod) (i : Int) : visitSeg items i 0 = [] := by
  simp only [visitSeg]
  rw [List.drop_eq_nil_of_le]
  · simp
  · simp only [List.length_take, Nat.sub_zero]
    omega

theorem visitSeg_succ (items : List Pod) (i : Int) (fuel : Nat) (pod : Pod)
    (h0 : 0 ≤ i) (hf : (fuel : Int) ≤ i) (hpod : items[i.toNat]? = some pod) :
    visitSeg items i (fuel + 1) = pod :: visitSeg items (i - 1) fuel := by
  have hi : i.toNat < items.length := by
    by_contra hcon
    rw [List.getElem?_eq_none (by omega)] at hpod
    exact Option.noConfusion hpod
  by_cases hI : 1 ≤ i
  · simp only [visitSeg]
    have e1 : i.toNat + 1 - (fuel + 1) = i.toNat - fuel := by omega
    have e2 : (i - 1).toNat + 1 = i.toNat := by omega
    rw [e1, e2, List.take_succ, hpod]
    have hlen : i.toNat - fuel ≤ (items.take i.toNat).length := by
      simp only [List.length_take]
      omega
    simp only [Option.toList_some]
    rw [List.drop_append_of_le_length hlen]
    simp
  · have hi0 : i = 0 := by omega
    have hf0 : fuel = 0 := by omega
    subst hi0 hf0
    rw [visitSeg_zero]
    simp only [visitSeg]
    rw [List.take_succ, hpod]
    have e0 : Int.toNat 0 + 1 - (0 + 1) = 0 := by omega
    rw [e0]
    have hlen : 0 ≤ (items.take (Int.toNat 0)).length := by omega
    simp only [Option.toList_some]
    rw [List.drop_append_of_le_length hlen]
    simp

/-- The delete loop visits `items[i]`, `items[i-1]`, …: it deletes from the
store the longest all-succeeding prefix of that sequence and reports the first
failing delete.  The hypotheses say every visited index is in range. -/
theorem deletePodsAux_eq (cl : Client) (items : List Pod) :
    ∀ fuel : Nat, ∀ i : Int, ∀ store : List Pod,
      (fuel : Int) ≤ i + 1 → i < (items.length : Int) →
      deletePodsAux cl items fuel i store =
        some (List.foldl applyDelete store
                ((visitSeg items i fuel).take
                  (okPrefixLen cl.deleteOk (visitSeg items i fuel))),
              (visitSeg items i fuel).take
                (okPrefixLen cl.deleteOk (visitSeg items i fuel)),
              ((visitSeg items i fuel).drop
                (okPrefixLen cl.deleteOk (visitSeg items i fuel))).head?.map
                PassError.deleteFailed) := by
  intro fuel
  induction fuel with
  | zero =>
    intro i store _ _
    simp [deletePodsAux, visitSeg_zero, okPrefixLen]
  | succ n ih =>
    intro i store h1 h2
    have h0 : 0 ≤ i := by omega
    have hi : i.toNat < items.length := by omega
    have hpod : items[i.toNat]? = some (items[i.toNat]) := List.getElem?_eq_getElem hi
    rw [visitSeg_succ items i n (items[i.toNat]) h0 (by omega) hpod]
    simp only [deletePodsAux]
    rw [if_neg (by omega : ¬ i < 0), hpod]
    dsimp only
    by_cases hok : cl.deleteOk (items[i.toNat]) = true
    · rw [ih (i - 1) (applyDelete store (items[i.toNat])) (by omega) (by omega)]
      simp [okPrefixLen, hok]
    · rw [Bool.not_eq_true] at hok
      simp [okPrefixLen, hok]

/-- When the delete loop is entered from `scalePods` — `currentSize` is the
length of `items` and `0 ≤ desiredSize < currentSize` — the visited sequence
is exactly the last `currentSize - desiredSize` items, in descending index
order. -/
theorem visitSeg_full (items : List Pod) (d : Int)
    (h0 : 0 ≤ d) (hlt : d < (items.length : Int)) :
    visitSeg items ((items.length : Int) - 1) ((items.length : Int) - d).toNat =
      (items.drop d.toNat).reverse := by
  simp only [visitSeg]
  have e1 : ((items.length : Int) - 1).toNat + 1 = items.length := by omega
  have e2 : ((items.length : Int) - 1).toNat + 1 -
      ((items.length : Int) - d).toNat = d.toNat := by omega
  rw [e2, e1, List.take_length]

theorem deletePods_eq (cl : Client) (items : List Pod) (d : Int) (store : List Pod)
    (h0 : 0 ≤ d) (hlt : d < (items.length : Int)) :
    deletePods cl items (items.length : Int) d store =
      some (List.foldl applyDelete store
              ((items.drop d.toNat).reverse.take
                (okPrefixLen cl.deleteOk (items.drop d.toNat).reverse)),
            (items.drop d.toNat).reverse.take
              (okPrefixLen cl.deleteOk (items.drop d.toNat).reverse),
            ((items.drop d.toNat).reverse.drop
              (okPrefixLen cl.deleteOk (items.drop d.toNat).reverse)).head?.map
              PassError.deleteFailed) := by
  rw [deletePods,
    deletePodsAux_eq cl items (((items.length : Int) - d).toNat)
      ((items.length : Int) - 1) store (by omega) (by omega),
    visitSeg_full items d h0 hlt]

/-- Under the loop precondition `0 ≤ desiredSize`, the delete loop never
indexes out of range (no Go panic), whatever the client does. -/
theorem deletePods_isSome (cl : Client) (items : List Pod) (d : Int)
    (store : List Pod) (h0 : 0 ≤ d) :
    (deletePods cl items (items.length : Int) d store).isSome := by
  by_cases h : d < (items.length : Int)
  · rw [deletePods_eq cl items d store h0 h]
    rfl
  · have hz : ((items.length : Int) - d).toNat = 0 := by omega
    rw [deletePods, hz]
    rfl

theorem deletePods_allOk (cl : Client) (items : List Pod) (d : Int)
    (store : List Pod) (h0 : 0 ≤ d) (hlt : d < (items.length : Int))
    (hok : ∀ p ∈ items, cl.deleteOk p = true) :
    deletePods cl items (items.length : Int) d store =
      some (List.foldl applyDelete store (items.drop d.toNat).reverse,
            (items.drop d.toNat).reverse, none) := by
  rw [deletePods_eq cl items d store h0 hlt,
    okPrefixLen_eq_length cl.deleteOk (items.drop d.toNat).reverse
      (fun p hp => hok p (List.mem_of_mem_drop (List.mem_reverse.mp hp))),
    List.take_length, List.drop_length]
  simp

theorem createPods_allOk (cl : Client) (a ns : String) (c d : Int)
    (store : List Pod)
    (hok : ∀ p ∈ createBatch a ns c (d - c).toNat, cl.createOk p = true) :
    createPods cl a ns c d store =
      (store ++ createBatch a ns c (d - c).toNat,
       createBatch a ns c (d - c).toNat, none) := by
  rw [createPods, createPodsAux_eq cl a ns ((d - c).toNat) c store,
    okPrefixLen_eq_length cl.createOk _ hok, List.take_length, List.drop_length]
  simp

/-! ### Distinctness of synthesized pod names

`podName` uses the decimal rendering of the index (`%d` in the Go format
string), so distinctness of the names reduces to injectivity of `Nat.repr`,
proved here through a structural description `natDigits` of
`Nat.toDigitsCore`. -/

/-- The decimal digit characters of `n`, most significant first; the list
`Nat.toDigits 10` computes with fuel. -/
def natDigits (n : Nat) : List Char :=
  if _h : n < 10 then [Nat.digitChar n]
  else natDigits (n / 10) ++ [Nat.digitChar (n % 10)]
termination_by n
decreasing_by exact Nat.div_lt_self (by omega) (by omega)

theorem natDigits_ne_nil (n : Nat) : natDigits n ≠ [] := by
  rw [natDigits]
  split <;> simp

theorem digitChar_inj_fin :
    ∀ a : Fin 10, ∀ b : Fin 10,
      Nat.digitChar a.val = Nat.digitChar b.val → a.val = b.val := by
  decide

theorem digitChar_inj (a b : Nat) (ha : a < 10) (hb : b < 10)
    (h : Nat.digitChar a = Nat.digitChar b) : a = b :=
  digitChar_inj_fin ⟨a, ha⟩ ⟨b, hb⟩ h

theorem natDigits_inj : ∀ m n : Nat, natDigits m = natDigits n → m = n := by
  intro m
  induction m using Nat.strong_induction_on with
  | _ m ih =>
    intro n h
    by_cases hm : m < 10 <;> by_cases hn : n < 10
    · rw [natDigits, dif_pos hm] at h
      rw [natDigits, dif_pos hn] at h
      exact digitChar_inj m n hm hn (List.cons_eq_cons.mp h).1
    · rw [natDigits, dif_pos hm] at h
      rw [natDigits, dif_neg hn] at h
      have := congrArg List.length h
      simp only [List.length_singleton, List.length_append] at this
      have h0 : (natDigits (n / 10)).length ≠ 0 :=
        fun hc => natDigits_ne_nil (n / 10) (List.length_eq_zero.mp hc)
      omega
    · rw [natDigits, dif_neg hm] at h
      rw [show natDigits n = [Nat.digitChar n] from by rw [natDigits, dif_pos hn]] at h
      have := congrArg List.length h
      simp only [List.length_singleton, List.length_append] at this
      have h0 : (natDigits (m / 10)).length ≠ 0 :=
        fun hc => natDigits_ne_nil (m / 10) (List.length_eq_zero.mp hc)
      omega
    · rw [natDigits, dif_neg hm] at h
      rw [show natDigits n = natDigits (n / 10) ++ [Nat.digitChar (n % 10)] from
        by rw [natDigits, dif_neg hn]] at h
      have hparts := List.append_inj' h (by simp)
      have hdiv : m / 10 = n / 10 :=
        ih (m / 10) (Nat.div_lt_self (by omega) (by omega)) (n / 10) hparts.1
      have hmod : m % 10 = n % 10 :=
        digitChar_inj (m % 10) (n % 10) (Nat.mod_lt m (by omega))
          (Nat.mod_lt n (by omega)) (List.cons_eq_cons.mp hparts.2).1
      omega

theorem toDigitsCore_eq_natDigits :
    ∀ fuel n ds, n < fuel →
      Nat.toDigitsCore 10 fuel n ds = natDigits n ++ ds := by
  intro fuel
  induction fuel with
  | zero => intro n ds h; omega
  | succ f ih =>
    intro n ds h
    simp only [Nat.toDigitsCore]
    by_cases h10 : n / 10 = 0
    · rw [if_pos h10]
      have hn : n < 10 := by omega
      rw [natDigits, dif_pos hn, Nat.mod_eq_of_lt hn]
      simp
    · rw [if_neg h10]
      have hn : ¬ n < 10 := by omega
      rw [ih (n / 10) (Nat.digitChar (n % 10) :: ds) (by omega)]
      rw [show natDigits n = natDigits (n / 10) ++ [Nat.digitChar (n % 10)] from
        by rw [natDigits, dif_neg hn]]
      simp

theorem natRepr_eq (n : Nat) : Nat.repr n = (natDigits n).asString := by
  rw [Nat.repr, Nat.toDigits,
    toDigitsCore_eq_natDigits (n + 1) n [] (by omega), List.append_nil]

theorem natRepr_inj (m n : Nat) (h : Nat.repr m = Nat.repr n) : m = n := by
  rw [natRepr_eq, natRepr_eq] at h
  apply natDigits_inj
  have := congrArg String.data h
  simpa [List.asString] using this

theorem intToString_inj (i j : Int) (hi : 0 ≤ i) (hj : 0 ≤ j)
    (h : toString i = toString j) : i = j := by
  have key : ∀ k : Int, 0 ≤ k → toString k = Nat.repr k.toNat := by
    intro k hk
    cases k with
    | ofNat p => rfl
    | negSucc p => exact absurd hk (Int.not_le.mpr (Int.negSucc_lt_zero p))
  rw [key i hi, key j hj] at h
  have := natRepr_inj i.toNat j.toNat h
  omega

theorem podName_inj (a : String) (i j : Int) (hi : 0 ≤ i) (hj : 0 ≤ j)
    (h : podName a i = podName a j) : i = j := by
  apply intToString_inj i j hi hj
  have hd := congrArg String.data h
  simp only [podName, String.data_append, List.append_assoc] at hd
  apply String.ext
  exact List.append_cancel_left (List.append_cancel_left hd)

theorem podName_range_nodup (a : String) (N : Nat) :
    ((List.range N).map (fun j : Nat => podName a ((j : Nat) : Int))).Nodup := by
  refine (List.nodup_range N).map ?_
  intro x y hxy
  exact_mod_cast podName_inj a x y (by omega) (by omega) hxy

/-! ### Listing lemmas -/

/-- Name and namespace: the identity of a stored object. -/
def podKey (p : Pod) : String × String :=
  (p.name, p.ns)

theorem deleteMatch_iff (p q : Pod) : deleteMatch p q = true ↔ podKey q = podKey p := by
  simp [deleteMatch, podKey, Prod.ext_iff]

theorem deleteMatch_self (q : Pod) : deleteMatch q q = true := by
  simp [deleteMatch]

theorem getPodList_append (reqNs a : String) (l₁ l₂ : List Pod) :
    getPodList reqNs a (l₁ ++ l₂) =
      getPodList reqNs a l₁ ++ getPodList reqNs a l₂ := by
  simp [getPodList]

theorem getPodList_createBatch (reqNs a : String) (i : Int) (fuel : Nat) :
    getPodList reqNs a (createBatch a reqNs i fuel) = createBatch a reqNs i fuel := by
  apply List.filter_eq_self.mpr
  intro p hp
  obtain ⟨hns, hl⟩ := createBatch_fields a reqNs fuel i p hp
  simp [hns, hl]

theorem foldl_applyDelete_eq_filter :
    ∀ ps store : List Pod,
      List.foldl applyDelete store ps =
        store.filter (fun q => !(ps.any (fun p => deleteMatch p q))) := by
  intro ps
  induction ps with
  | nil => intro store; simp
  | cons p ps ih =>
    intro store
    rw [List.foldl_cons, ih (applyDelete store p), applyDelete, List.filter_filter]
    apply List.filter_congr
    intro q _
    simp only [List.any_cons, Bool.not_or]
    rw [Bool.and_comm]

theorem getPodList_filter (reqNs a : String) (pred : Pod → Bool) (l : List Pod) :
    getPodList reqNs a (l.filter pred) = (getPodList reqNs a l).filter pred := by
  simp only [getPodList, List.filter_filter]
  apply List.filter_congr
  intro q _
  rw [Bool.and_comm]

/-- Deleting the last `length - n` listed pods (in any order) leaves exactly
the first `n`, provided the listed pods have pairwise distinct identities. -/
theorem filter_not_any_drop (L : List Pod) (n : Nat)
    (hnd : (L.map podKey).Nodup) :
    L.filter (fun q => !((L.drop n).reverse.any (fun p => deleteMatch p q))) =
      L.take n := by
  have hdisj : ∀ q ∈ L.take n, ∀ p ∈ L.drop n, podKey q ≠ podKey p := by
    intro q hq p hp
    rw [← List.take_append_drop n L, List.map_append] at hnd
    have hD := List.disjoint_of_nodup_append hnd
    intro hk
    exact hD (List.mem_map_of_mem podKey hq) (hk ▸ List.mem_map_of_mem podKey hp)
  have hgen : ∀ P : Pod → Bool,
      (∀ q ∈ L.take n, P q = true) → (∀ q ∈ L.drop n, P q = false) →
      L.filter P = L.take n := by
    intro P h1 h2
    conv_lhs => rw [← List.take_append_drop n L]
    rw [List.filter_append, List.filter_eq_self.mpr h1,
      List.filter_eq_nil_iff.mpr (fun a ha => by simp [h2 a ha]), List.append_nil]
  apply hgen
  · intro q hq
    have hfalse : (L.drop n).reverse.any (fun p => deleteMatch p q) = false := by
      rw [List.any_eq_false]
      intro p hp
      rw [List.mem_reverse] at hp
      intro hm
      exact hdisj q hq p hp ((deleteMatch_iff p q).mp hm)
    simp [hfalse]
  · intro q hq
    have htrue : (L.drop n).reverse.any (fun p => deleteMatch p q) = true :=
      List.any_eq_true.mpr ⟨q, List.mem_reverse.mpr hq, deleteMatch_self q⟩
    simp [htrue]

/-! ### One-pass compute lemmas -/

theorem reconcile_scale_err (cl : Client) (app : AppInstance) (reqNs : String)
    (cluster c2 cr dl : List Pod) (e : PassError)
    (hget : cl.getApp = Except.ok app) (hlist : cl.listOk = true)
    (hscale : scalePods cl reqNs app (getPodList reqNs app.name cluster) cluster =
      some (c2, cr, dl, some e)) :
    reconcile cl reqNs cluster =
      some { cluster := c2, creates := cr, deletes := dl, listed := true,
             statusAttempt := none, persisted := none, err := some e } := by
  simp only [reconcile, hget, hlist, hscale, if_true]

theorem reconcile_scale_ok (cl : Client) (app : AppInstance) (reqNs : String)
    (cluster c2 cr dl : List Pod)
    (hget : cl.getApp = Except.ok app) (hlist : cl.listOk = true)
    (hscale : scalePods cl reqNs app (getPodList reqNs app.name cluster) cluster =
      some (c2, cr, dl, none)) :
    reconcile cl reqNs cluster =
      some { cluster := c2, creates := cr, deletes := dl, listed := true,
             statusAttempt := some ((getPodList reqNs app.name cluster).map Pod.name),
             persisted := if cl.statusOk then
                 some ((getPodList reqNs app.name cluster).map Pod.name)
               else none,
             err := if cl.statusOk then none
               else some PassError.statusUpdateFailed } := by
  simp only [reconcile, hget, hlist, hscale, if_true]

/-- The batch of pods a grow pass attempts: indices `currentSize` through
`desiredSize - 1`. -/
def growBatch (app : AppInstance) (reqNs : String) (podList : List Pod) : List Pod :=
  createBatch app.name reqNs ((podList.length : Nat) : Int)
    ((app.size - ((podList.length : Nat) : Int)).toNat)

/-- The sequence of pods a shrink pass visits: the last
`currentSize - desiredSize` observed pods, in descending index order. -/
def shrinkSeq (app : AppInstance) (podList : List Pod) : List Pod :=
  (podList.drop app.size.toNat).reverse

theorem scalePods_grow_any (cl : Client) (reqNs : String) (app : AppInstance)
    (podList store : List Pod) (h : ((podList.length : Nat) : Int) < app.size) :
    scalePods cl reqNs app podList store =
      some (store ++ (growBatch app reqNs podList).take
              (okPrefixLen cl.createOk (growBatch app reqNs podList)),
            (growBatch app reqNs podList).take
              (okPrefixLen cl.createOk (growBatch app reqNs podList)),
            [],
            ((growBatch app reqNs podList).drop
              (okPrefixLen cl.createOk (growBatch app reqNs podList))).head?.map
              PassError.createFailed) := by
  simp only [scalePods, growBatch]
  rw [if_pos h, createPods, createPodsAux_eq]

theorem scalePods_grow_allOk (cl : Client) (reqNs : String) (app : AppInstance)
    (podList store : List Pod) (h : ((podList.length : Nat) : Int) < app.size)
    (hc : ∀ p ∈ growBatch app reqNs podList, cl.createOk p = true) :
    scalePods cl reqNs app podList store =
      some (store ++ growBatch app reqNs podList,
            growBatch app reqNs podList, [], none) := by
  rw [scalePods_grow_any cl reqNs app podList store h,
    okPrefixLen_eq_length cl.createOk _ hc, List.take_length, List.drop_length]
  simp

theorem scalePods_shrink_any (cl : Client) (reqNs : String) (app : AppInstance)
    (podList store : List Pod) (h0 : 0 ≤ app.size)
    (h : app.size < ((podList.length : Nat) : Int)) :
    scalePods cl reqNs app podList store =
      some (List.foldl applyDelete store
              ((shrinkSeq app podList).take
                (okPrefixLen cl.deleteOk (shrinkSeq app podList))),
            [],
            (shrinkSeq app podList).take
              (okPrefixLen cl.deleteOk (shrinkSeq app podList)),
            ((shrinkSeq app podList).drop
              (okPrefixLen cl.deleteOk (shrinkSeq app podList))).head?.map
              PassError.deleteFailed) := by
  simp only [scalePods, shrinkSeq]
  rw [if_neg (by omega), if_pos (by omega),
    deletePods_eq cl podList app.size store h0 h]

theorem scalePods_shrink_allOk (cl : Client) (reqNs : String) (app : AppInstance)
    (podList store : List Pod) (h0 : 0 ≤ app.size)
    (h : app.size < ((podList.length : Nat) : Int))
    (hdel : ∀ p ∈ podList, cl.deleteOk p = true) :
    scalePods cl reqNs app podList store =
      some (List.foldl applyDelete store (shrinkSeq app podList),
            [], shrinkSeq app podList, none) := by
  rw [scalePods_shrink_any cl reqNs app podList store h0 h,
    okPrefixLen_eq_length cl.deleteOk (shrinkSeq app podList)
      (fun p hp => hdel p (List.mem_of_mem_drop (List.mem_reverse.mp hp))),
    List.take_length, List.drop_length]
  simp

theorem scalePods_noop (cl : Client) (reqNs : String) (app : AppInstance)
    (podList store : List Pod) (h : ((podList.length : Nat) : Int) = app.size) :
    scalePods cl reqNs app podList store = some (store, [], [], none) := by
  simp only [scalePods]
  rw [if_neg (by omega), if_neg (by omega)]

theorem okPrefixLen_lt_of_exists_fail (ok : Pod → Bool) (l : List Pod)
    (h : ∃ q ∈ l, ok q = false) : okPrefixLen ok l < l.length := by
  obtain ⟨q, hq, hqf⟩ := h
  rcases Nat.lt_or_ge (okPrefixLen ok l) l.length with hlt | hge
  · exact hlt
  · exfalso
    have heq : okPrefixLen ok l = l.length :=
      le_antisymm (okPrefixLen_le ok l) hge
    have : ok q = true := by
      apply okPrefixLen_take ok l q
      rw [heq, List.take_length]
      exact hq
    rw [this] at hqf
    exact Bool.noConfusion hqf

theorem drop_head_exists (l : List Pod) (n : Nat) (h : n < l.length) :
    ∃ p, (l.drop n).head? = some p := by
  have hne : l.drop n ≠ [] := by
    intro hc
    have := congrArg List.length hc
    simp only [List.length_drop, List.length_nil] at this
    omega
  obtain ⟨p, t, ht⟩ := List.exists_cons_of_ne_nil hne
  exact ⟨p, by rw [ht]; rfl⟩

theorem createBatch_eq_map (a ns : String) :
    ∀ fuel : Nat, ∀ i : Int,
      createBatch a ns i fuel =
        (List.range fuel).map (fun j : Nat => mkPod a ns (i + (j : Int))) := by
  intro fuel
  induction fuel with
  | zero => intro i; simp [createBatch]
  | succ n ih =>
    intro i
    rw [List.range_succ_eq_map]
    simp only [createBatch, List.map_cons, ih (i + 1), List.map_map]
    refine List.cons_eq_cons.mpr ⟨?_, ?_⟩
    · have h0 : i + ((0 : Nat) : Int) = i := by push_cast; ring
      rw [h0]
    · apply List.map_congr_left
      intro j _
      simp only [Function.comp_apply]
      congr 1
      push_cast
      ring

/-! ### Claims -/

/-- C4: for every pair of counts the scaling decision is a pure function of
`desiredSize` and `currentSize` with exactly one of three outcomes: grow by
`desiredSize - currentSize` when `currentSize < desiredSize`, shrink by
`currentSize - desiredSize` when `currentSize > desiredSize`, and no
operation when they are equal.  (`scalePods` is a pure function of its
arguments by construction; the counts here are the spec's non-negative
`desiredSize` and the observed length.) -/
theorem c4_diff_decision (cl : Client) (reqNs : String) (app : AppInstance)
    (podList store : List Pod) (hd : 0 ≤ app.size)
    (hc : ∀ p, cl.createOk p = true) (hdel : ∀ p, cl.deleteOk p = true) :
    ∃ c2 cr dl, scalePods cl reqNs app podList store = some (c2, cr, dl, none) ∧
      ((((podList.length : Nat) : Int) < app.size ∧
          (cr.length : Int) = app.size - ((podList.length : Nat) : Int) ∧ dl = []) ∨
       (app.size < ((podList.length : Nat) : Int) ∧
          (dl.length : Int) = ((podList.length : Nat) : Int) - app.size ∧ cr = []) ∨
       (((podList.length : Nat) : Int) = app.size ∧ cr = [] ∧ dl = [])) := by
  rcases lt_trichotomy (((podList.length : Nat) : Int)) app.size with h | h | h
  · refine ⟨_, _, _,
      scalePods_grow_allOk cl reqNs app podList store h (fun p _ => hc p),
      Or.inl ⟨h, ?_, rfl⟩⟩
    rw [growBatch, createBatch_length]
    omega
  · exact ⟨_, _, _, scalePods_noop cl reqNs app podList store h,
      Or.inr (Or.inr ⟨h, rfl, rfl⟩)⟩
  · refine ⟨_, _, _,
      scalePods_shrink_allOk cl reqNs app podList store hd h (fun p _ => hdel p),
      Or.inr (Or.inl ⟨h, ?_, rfl⟩)⟩
    show ((shrinkSeq app podList).length : Int) = _
    simp only [shrinkSeq, List.length_reverse, List.length_drop]
    omega

theorem c4_witness :
    ∃ c2 cr dl,
      scalePods (allOkClient { name := "app", size := 2, statusNodes := [] })
          "default" { name := "app", size := 2, statusNodes := [] } [] [] =
        some (c2, cr, dl, none) ∧
      ((((([] : List Pod).length : Nat) : Int) <
            ({ name := "app", size := 2, statusNodes := [] } : AppInstance).size ∧
          (cr.length : Int) =
            ({ name := "app", size := 2, statusNodes := [] } : AppInstance).size -
              ((([] : List Pod).length : Nat) : Int) ∧ dl = []) ∨
       (({ name := "app", size := 2, statusNodes := [] } : AppInstance).size <
            ((([] : List Pod).length : Nat) : Int) ∧
          (dl.length : Int) = ((([] : List Pod).length : Nat) : Int) -
            ({ name := "app", size := 2, statusNodes := [] } : AppInstance).size ∧
          cr = []) ∨
       (((([] : List Pod).length : Nat) : Int) =
            ({ name := "app", size := 2, statusNodes := [] } : AppInstance).size ∧
          cr = [] ∧ dl = [])) :=
  c4_diff_decision (allOkClient { name := "app", size := 2, statusNodes := [] })
    "default" { name := "app", size := 2, statusNodes := [] } [] []
    (by decide) (fun _ => rfl) (fun _ => rfl)

/-- C8: when the Get on the Instance reports NotFound the pass ends silently
and successfully — no error, no list, no creates, no deletes, no status
write; any other Get failure is surfaced as an error (also with no further
action). -/
theorem c8_notfound_silent (cl : Client) (reqNs : String) (cluster : List Pod) :
    (cl.getApp = Except.error GetError.notFound →
      reconcile cl reqNs cluster =
        some { cluster := cluster, creates := [], deletes := [], listed := false,
               statusAttempt := none, persisted := none, err := none }) ∧
    (cl.getApp = Except.error GetError.other →
      reconcile cl reqNs cluster =
        some { cluster := cluster, creates := [], deletes := [], listed := false,
               statusAttempt := none, persisted := none,
               err := some PassError.getFailed }) := by
  constructor <;> intro h <;> simp [reconcile, h]

theorem c8_witness :
    reconcile { getApp := Except.error GetError.notFound, listOk := true,
                createOk := fun _ => true, deleteOk := fun _ => true,
                statusOk := true } "default" [mkPod "app" "default" 0] =
      some { cluster := [mkPod "app" "default" 0], creates := [], deletes := [],
             listed := false, statusAttempt := none, persisted := none,
             err := none } ∧
    reconcile { getApp := Except.error GetError.other, listOk := true,
                createOk := fun _ => true, deleteOk := fun _ => true,
                statusOk := true } "default" [mkPod "app" "default" 0] =
      some { cluster := [mkPod "app" "default" 0], creates := [], deletes := [],
             listed := false, statusAttempt := none, persisted := none,
             err := some PassError.getFailed } :=
  ⟨(c8_notfound_silent _ "default" [mkPod "app" "default" 0]).1 rfl,
   (c8_notfound_silent _ "default" [mkPod "app" "default" 0]).2 rfl⟩

/-- C9: whenever `desiredSize ≥ 0` (the spec's stated precondition, which
neither the Go type nor the CRD schema enforces) and `currentSize` is the
length of the observed pod list — as `scalePods` always passes it — every
index the shrink loop accesses is within bounds: the loop produces a result
instead of the out-of-range panic modelled by `none`, for any client. -/
theorem c9_shrink_loop_in_bounds (cl : Client) (reqNs : String)
    (app : AppInstance) (items store : List Pod) (hd : 0 ≤ app.size) :
    (deletePods cl items ((items.length : Nat) : Int) app.size store).isSome ∧
    (scalePods cl reqNs app items store).isSome := by
  constructor
  · exact deletePods_isSome cl items app.size store hd
  · rcases lt_trichotomy (((items.length : Nat) : Int)) app.size with h | h | h
    · rw [scalePods_grow_any cl reqNs app items store h]
      rfl
    · rw [scalePods_noop cl reqNs app items store h]
      rfl
    · rw [scalePods_shrink_any cl reqNs app items store hd h]
      rfl

theorem c9_witness :
    0 ≤ ({ name := "app", size := 1, statusNodes := [] } : AppInstance).size ∧
    (deletePods (allOkClient { name := "app", size := 1, statusNodes := [] })
        [mkPod "app" "default" 0, mkPod "app" "default" 1]
        ((([mkPod "app" "default" 0, mkPod "app" "default" 1] : List Pod).length : Nat) : Int)
        ({ name := "app", size := 1, statusNodes := [] } : AppInstance).size []).isSome ∧
    (scalePods (allOkClient { name := "app", size := 1, statusNodes := [] })
        "default" { name := "app", size := 1, statusNodes := [] }
        [mkPod "app" "default" 0, mkPod "app" "default" 1] []).isSome :=
  ⟨by decide,
   (c9_shrink_loop_in_bounds
      (allOkClient { name := "app", size := 1, statusNodes := [] }) "default"
      { name := "app", size := 1, statusNodes := [] }
      [mkPod "app" "default" 0, mkPod "app" "default" 1] [] (by decide)).1,
   (c9_shrink_loop_in_bounds
      (allOkClient { name := "app", size := 1, statusNodes := [] }) "default"
      { name := "app", size := 1, statusNodes := [] }
      [mkPod "app" "default" 0, mkPod "app" "default" 1] [] (by decide)).2⟩

/-- C10: when `currentSize > desiredSize`, the units a pass deletes are a
deterministic function of the observed pod list as given: exactly the last
`currentSize - desiredSize` elements, with delete calls issued in descending
list-index order (the deleted sequence is the reverse of the list's suffix
from index `desiredSize`). -/
theorem c10_shrink_deletes_last_descending (cl : Client) (reqNs : String)
    (app : AppInstance) (podList store : List Pod) (hd : 0 ≤ app.size)
    (hgt : app.size < ((podList.length : Nat) : Int))
    (hdel : ∀ p ∈ podList, cl.deleteOk p = true) :
    ∃ c2, scalePods cl reqNs app podList store =
      some (c2, [], (podList.drop app.size.toNat).reverse, none) :=
  ⟨_, scalePods_shrink_allOk cl reqNs app podList store hd hgt hdel⟩

theorem c10_witness :
    ∃ c2,
      scalePods (allOkClient { name := "app", size := 1, statusNodes := [] })
          "default" { name := "app", size := 1, statusNodes := [] }
          [mkPod "app" "default" 0, mkPod "app" "default" 1, mkPod "app" "default" 2]
          [mkPod "app" "default" 0, mkPod "app" "default" 1, mkPod "app" "default" 2] =
        some (c2, [],
          (([mkPod "app" "default" 0, mkPod "app" "default" 1,
             mkPod "app" "default" 2] : List Pod).drop
            (({ name := "app", size := 1, statusNodes := [] } : AppInstance).size.toNat)).reverse,
          none) :=
  c10_shrink_deletes_last_descending
    (allOkClient { name := "app", size := 1, statusNodes := [] }) "default"
    { name := "app", size := 1, statusNodes := [] }
    [mkPod "app" "default" 0, mkPod "app" "default" 1, mkPod "app" "default" 2]
    [mkPod "app" "default" 0, mkPod "app" "default" 1, mkPod "app" "default" 2]
    (by decide) (by decide) (fun _ _ => rfl)

/-- C5: in any pass in which an individual create (resp. delete) against the
store fails, the loop aborts the remaining batch items, surfaces the failure
to the caller, and keeps the already-applied creates (resp. deletes) — no
rollback: the final store is the initial one plus (resp. minus) exactly the
items applied before the failing one. -/
theorem c5_partial_batch_failure (cl : Client) (a reqNs : String)
    (store : List Pod) :
    (∀ c d : Int,
      (∃ q ∈ createBatch a reqNs c (d - c).toNat, cl.createOk q = false) →
      ∃ k p, k < (createBatch a reqNs c (d - c).toNat).length ∧
        (∀ q ∈ (createBatch a reqNs c (d - c).toNat).take k,
          cl.createOk q = true) ∧
        cl.createOk p = false ∧
        createPods cl a reqNs c d store =
          (store ++ (createBatch a reqNs c (d - c).toNat).take k,
           (createBatch a reqNs c (d - c).toNat).take k,
           some (PassError.createFailed p))) ∧
    (∀ items : List Pod, ∀ d : Int,
      0 ≤ d → d < ((items.length : Nat) : Int) →
      (∃ q ∈ (items.drop d.toNat).reverse, cl.deleteOk q = false) →
      ∃ k p, k < (items.drop d.toNat).reverse.length ∧
        (∀ q ∈ (items.drop d.toNat).reverse.take k, cl.deleteOk q = true) ∧
        cl.deleteOk p = false ∧
        deletePods cl items ((items.length : Nat) : Int) d store =
          some (List.foldl applyDelete store ((items.drop d.toNat).reverse.take k),
                (items.drop d.toNat).reverse.take k,
                some (PassError.deleteFailed p))) := by
  constructor
  · intro c d hfail
    have hk := okPrefixLen_lt_of_exists_fail cl.createOk
      (createBatch a reqNs c (d - c).toNat) hfail
    obtain ⟨p, hp⟩ := drop_head_exists (createBatch a reqNs c (d - c).toNat)
      (okPrefixLen cl.createOk (createBatch a reqNs c (d - c).toNat)) hk
    refine ⟨okPrefixLen cl.createOk (createBatch a reqNs c (d - c).toNat), p, hk,
      okPrefixLen_take cl.createOk (createBatch a reqNs c (d - c).toNat),
      okPrefixLen_head cl.createOk (createBatch a reqNs c (d - c).toNat) p hp, ?_⟩
    rw [createPods, createPodsAux_eq, hp]
    rfl
  · intro items d h0 hlt hfail
    have hk := okPrefixLen_lt_of_exists_fail cl.deleteOk
      (items.drop d.toNat).reverse hfail
    obtain ⟨p, hp⟩ := drop_head_exists (items.drop d.toNat).reverse
      (okPrefixLen cl.deleteOk (items.drop d.toNat).reverse) hk
    refine ⟨okPrefixLen cl.deleteOk (items.drop d.toNat).reverse, p, hk,
      okPrefixLen_take cl.deleteOk (items.drop d.toNat).reverse,
      okPrefixLen_head cl.deleteOk (items.drop d.toNat).reverse p hp, ?_⟩
    rw [deletePods_eq cl items d store h0 hlt, hp]
    rfl

/-- A client whose Create and Delete fail exactly on the pod named
`app-pod-1`; used to witness partial-batch failure. -/
def failPod1Client : Client :=
  { getApp := Except.ok { name := "app", size := 2, statusNodes := [] },
    listOk := true,
    createOk := fun p => p.name != "app-pod-1",
    deleteOk := fun p => p.name != "app-pod-1",
    statusOk := true }

theorem c5_witness :
    (∃ k p, k < (createBatch "app" "default" 0 ((2 : Int) - (0 : Int)).toNat).length ∧
      (∀ q ∈ (createBatch "app" "default" 0 ((2 : Int) - (0 : Int)).toNat).take k,
        failPod1Client.createOk q = true) ∧
      failPod1Client.createOk p = false ∧
      createPods failPod1Client "app" "default" 0 2 [] =
        ([] ++ (createBatch "app" "default" 0 ((2 : Int) - (0 : Int)).toNat).take k,
         (createBatch "app" "default" 0 ((2 : Int) - (0 : Int)).toNat).take k,
         some (PassError.createFailed p))) ∧
    (∃ k p,
      k < (([mkPod "app" "default" 0, mkPod "app" "default" 1] : List Pod).drop
            (0 : Int).toNat).reverse.length ∧
      (∀ q ∈ (([mkPod "app" "default" 0, mkPod "app" "default" 1] : List Pod).drop
            (0 : Int).toNat).reverse.take k,
        failPod1Client.deleteOk q = true) ∧
      failPod1Client.deleteOk p = false ∧
      deletePods failPod1Client
          [mkPod "app" "default" 0, mkPod "app" "default" 1]
          ((([mkPod "app" "default" 0, mkPod "app" "default" 1] : List Pod).length : Nat) : Int)
          0 [] =
        some (List.foldl applyDelete []
                ((([mkPod "app" "default" 0, mkPod "app" "default" 1] : List Pod).drop
                  (0 : Int).toNat).reverse.take k),
              (([mkPod "app" "default" 0, mkPod "app" "default" 1] : List Pod).drop
                (0 : Int).toNat).reverse.take k,
              some (PassError.deleteFailed p))) :=
  ⟨(c5_partial_batch_failure failPod1Client "app" "default" []).1 0 2
      ⟨mkPod "app" "default" 1, by decide, rfl⟩,
   (c5_partial_batch_failure failPod1Client "app" "default" []).2
      [mkPod "app" "default" 0, mkPod "app" "default" 1] 0 (by decide) (by decide)
      ⟨mkPod "app" "default" 1, by decide, rfl⟩⟩

/-- Concrete instances used by witnesses and counterexamples. -/
def appSize3 : AppInstance := { name := "app", size := 3, statusNodes := [] }

def appSize1 : AppInstance := { name := "app", size := 1, statusNodes := [] }

/-- C1 (amended): for desired size N ≥ 0 with 0 observed units, one pass
creates exactly N units named `<instance>-pod-0` … `<instance>-pod-(N-1)`
(all distinct and deterministic).  However, the status written at the end of
the pass is derived from the pod list fetched *before* scaling, so
`Status.Nodes` after the pass is the empty list (length 0), not length N. -/
theorem c1_grow_from_empty (app : AppInstance) (reqNs : String)
    (cluster : List Pod) (hd : 0 ≤ app.size)
    (hobs : getPodList reqNs app.name cluster = []) :
    ∃ r, reconcile (allOkClient app) reqNs cluster = some r ∧
      (r.creates.length : Int) = app.size ∧
      r.creates.map Pod.name =
        (List.range app.size.toNat).map
          (fun j : Nat => podName app.name ((j : Nat) : Int)) ∧
      (r.creates.map Pod.name).Nodup ∧
      r.deletes = [] ∧ r.err = none ∧
      r.persisted = some [] := by
  have hname : ∀ N : Nat,
      (createBatch app.name reqNs 0 N).map Pod.name =
        (List.range N).map (fun j : Nat => podName app.name ((j : Nat) : Int)) := by
    intro N
    rw [createBatch_map_name]
    apply List.map_congr_left
    intro j _
    rw [zero_add]
  by_cases hz : app.size = 0
  · have hlen : (((getPodList reqNs app.name cluster).length : Nat) : Int) = app.size := by
      rw [hobs, hz]
      rfl
    refine ⟨_, reconcile_scale_ok (allOkClient app) app reqNs cluster cluster [] []
      rfl rfl (scalePods_noop (allOkClient app) reqNs app
        (getPodList reqNs app.name cluster) cluster hlen), ?_, ?_, ?_, rfl, ?_, ?_⟩
    · rw [hz]
      rfl
    · rw [hz]
      rfl
    · simp
    · rfl
    · show (if (allOkClient app).statusOk then
          some ((getPodList reqNs app.name cluster).map Pod.name) else none) = some []
      rw [hobs]
      rfl
  · have hlt : (((getPodList reqNs app.name cluster).length : Nat) : Int) < app.size := by
      rw [hobs]
      simp only [List.length_nil, Nat.cast_zero]
      omega
    have hGB : growBatch app reqNs (getPodList reqNs app.name cluster) =
        createBatch app.name reqNs 0 app.size.toNat := by
      rw [growBatch, hobs]
      norm_num
    refine ⟨_, reconcile_scale_ok (allOkClient app) app reqNs cluster _ _ []
      rfl rfl (scalePods_grow_allOk (allOkClient app) reqNs app
        (getPodList reqNs app.name cluster) cluster hlt (fun p _ => rfl)), ?_, ?_, ?_, rfl, ?_, ?_⟩
    · show (((growBatch app reqNs (getPodList reqNs app.name cluster)).length : Nat) : Int) = app.size
      rw [hGB, createBatch_length]
      omega
    · show (growBatch app reqNs (getPodList reqNs app.name cluster)).map Pod.name = _
      rw [hGB, hname]
    · show ((growBatch app reqNs (getPodList reqNs app.name cluster)).map Pod.name).Nodup
      rw [hGB, hname]
      exact podName_range_nodup app.name app.size.toNat
    · rfl
    · show (if (allOkClient app).statusOk then
          some ((getPodList reqNs app.name cluster).map Pod.name) else none) = some []
      rw [hobs]
      rfl

theorem c1_witness :
    0 ≤ appSize3.size ∧
    getPodList "default" appSize3.name [] = [] ∧
    ∃ r, reconcile (allOkClient appSize3) "default" [] = some r ∧
      (r.creates.length : Int) = appSize3.size ∧
      r.creates.map Pod.name =
        (List.range appSize3.size.toNat).map
          (fun j : Nat => podName appSize3.name ((j : Nat) : Int)) ∧
      (r.creates.map Pod.name).Nodup ∧
      r.deletes = [] ∧ r.err = none ∧
      r.persisted = some [] :=
  ⟨by decide, rfl, c1_grow_from_empty appSize3 "default" [] (by decide) rfl⟩

/-- C1 counterexample: at the spec's own concrete scenario (desired size 3,
observed = {}), the pass does create `app-pod-0`, `app-pod-1`, `app-pod-2`,
but the persisted `Status.Nodes` is the empty pre-scale list — length 0, not
3 as the claim states. -/
theorem c1_cex_status_stale :
    (reconcile (allOkClient appSize3) "default" []).map
        (fun r => (r.creates.map Pod.name, r.persisted.map List.length)) =
      some (["app-pod-0", "app-pod-1", "app-pod-2"], some 0) ∧ (0 : Nat) ≠ 3 :=
  ⟨by rfl, by decide⟩

/-- C2 (amended): for observed size M > desired size N ≥ 0, one pass deletes
exactly M − N units and performs no creates.  However, the status written at
the end of the pass is derived from the pod list fetched *before* scaling,
so `Status.Nodes` after the pass has length M, not N. -/
theorem c2_shrink_pass (app : AppInstance) (reqNs : String)
    (cluster : List Pod) (hd : 0 ≤ app.size)
    (hgt : app.size < (((getPodList reqNs app.name cluster).length : Nat) : Int)) :
    ∃ r, reconcile (allOkClient app) reqNs cluster = some r ∧
      (r.deletes.length : Int) =
        (((getPodList reqNs app.name cluster).length : Nat) : Int) - app.size ∧
      r.creates = [] ∧ r.err = none ∧
      r.persisted = some ((getPodList reqNs app.name cluster).map Pod.name) ∧
      r.persisted.map List.length =
        some (getPodList reqNs app.name cluster).length := by
  refine ⟨_, reconcile_scale_ok (allOkClient app) app reqNs cluster _ [] _
    rfl rfl (scalePods_shrink_allOk (allOkClient app) reqNs app
      (getPodList reqNs app.name cluster) cluster hd hgt (fun p _ => rfl)),
    ?_, rfl, ?_, ?_, ?_⟩
  · show (((shrinkSeq app (getPodList reqNs app.name cluster)).length : Nat) : Int) = _
    simp only [shrinkSeq, List.length_reverse, List.length_drop]
    omega
  · rfl
  · rfl
  · show (some ((getPodList reqNs app.name cluster).map Pod.name)).map List.length = _
    simp

theorem c2_witness :
    0 ≤ appSize1.size ∧
    appSize1.size <
      (((getPodList "default" appSize1.name
          [mkPod "app" "default" 0, mkPod "app" "default" 1]).length : Nat) : Int) ∧
    ∃ r, reconcile (allOkClient appSize1) "default"
        [mkPod "app" "default" 0, mkPod "app" "default" 1] = some r ∧
      (r.deletes.length : Int) =
        (((getPodList "default" appSize1.name
            [mkPod "app" "default" 0, mkPod "app" "default" 1]).length : Nat) : Int) -
          appSize1.size ∧
      r.creates = [] ∧ r.err = none ∧
      r.persisted = some ((getPodList "default" appSize1.name
          [mkPod "app" "default" 0, mkPod "app" "default" 1]).map Pod.name) ∧
      r.persisted.map List.length =
        some (getPodList "default" appSize1.name
          [mkPod "app" "default" 0, mkPod "app" "default" 1]).length :=
  ⟨by decide, by decide,
   c2_shrink_pass appSize1 "default"
     [mkPod "app" "default" 0, mkPod "app" "default" 1] (by decide) (by decide)⟩

/-- C2 counterexample: observed M = 2, desired N = 1.  The pass deletes
exactly one unit (M − N = 1, as the claim states), but the persisted
`Status.Nodes` is the stale pre-scale list of length 2, not length N = 1. -/
theorem c2_cex_status_stale :
    (reconcile (allOkClient appSize1)
        "default" [mkPod "app" "default" 0, mkPod "app" "default" 1]).map
        (fun r => (r.deletes.length, r.persisted.map List.length)) =
      some (1, some 2) ∧ (2 : Nat) ≠ 1 :=
  ⟨by rfl, by decide⟩

/-- C3 (amended): the pass does not re-derive the live unit list after
lifecycle actions.  When scaling succeeds, the status write submits the pod
list fetched *before* the creates/deletes; when a create or delete fails
partway, `Reconcile` returns that error at once and the status write is not
attempted at all. -/
theorem c3_status_prescale_and_skipped_on_failure
    (cl : Client) (app : AppInstance) (reqNs : String)
    (cluster c2 cr dl : List Pod)
    (hget : cl.getApp = Except.ok app) (hlist : cl.listOk = true) :
    (∀ e : PassError,
      scalePods cl reqNs app (getPodList reqNs app.name cluster) cluster =
        some (c2, cr, dl, some e) →
      reconcile cl reqNs cluster =
        some { cluster := c2, creates := cr, deletes := dl, listed := true,
               statusAttempt := none, persisted := none, err := some e }) ∧
    (scalePods cl reqNs app (getPodList reqNs app.name cluster) cluster =
        some (c2, cr, dl, none) →
      reconcile cl reqNs cluster =
        some { cluster := c2, creates := cr, deletes := dl, listed := true,
               statusAttempt :=
                 some ((getPodList reqNs app.name cluster).map Pod.name),
               persisted := if cl.statusOk then
                   some ((getPodList reqNs app.name cluster).map Pod.name)
                 else none,
               err := if cl.statusOk then none
                 else some PassError.statusUpdateFailed }) :=
  ⟨fun e h => reconcile_scale_err cl app reqNs cluster c2 cr dl e hget hlist h,
   fun h => reconcile_scale_ok cl app reqNs cluster c2 cr dl hget hlist h⟩

theorem c3_witness :
    reconcile failPod1Client "default" [] =
      some { cluster := [mkPod "app" "default" 0],
             creates := [mkPod "app" "default" 0], deletes := [], listed := true,
             statusAttempt := none, persisted := none,
             err := some (PassError.createFailed (mkPod "app" "default" 1)) } :=
  (c3_status_prescale_and_skipped_on_failure failPod1Client
      { name := "app", size := 2, statusNodes := [] } "default" []
      [mkPod "app" "default" 0] [mkPod "app" "default" 0] [] rfl rfl).1
    (PassError.createFailed (mkPod "app" "default" 1)) (by rfl)

/-- C3 counterexample: a pass whose second create fails.  The claim says the
status write is attempted even on a partial lifecycle failure; the pass in
fact returns the create error with no status write (`statusAttempt = none`). -/
theorem c3_cex_no_status_write_on_failure :
    (reconcile failPod1Client "default" []).map
        (fun r => (r.statusAttempt, r.err)) =
      some (none, some (PassError.createFailed (mkPod "app" "default" 1))) := by
  rfl

/-- C7: running a second pass immediately after a successful pass, with no
intervening external change, performs zero creates and zero deletes.  The
hypotheses: the spec's `desiredSize ≥ 0`, and pairwise-distinct identities
among the listed pods (an invariant of any real store, where name+namespace
is a key). -/
theorem c7_second_pass_noop (app : AppInstance) (reqNs : String)
    (cluster : List Pod) (hd : 0 ≤ app.size)
    (hnd : ((getPodList reqNs app.name cluster).map podKey).Nodup) :
    ∃ r1 r2,
      reconcile (allOkClient app) reqNs cluster = some r1 ∧ r1.err = none ∧
      reconcile (allOkClient app) reqNs r1.cluster = some r2 ∧
      r2.creates = [] ∧ r2.deletes = [] ∧ r2.err = none := by
  rcases lt_trichotomy (((getPodList reqNs app.name cluster).length : Nat) : Int)
      app.size with h | h | h
  · have hpass1 := reconcile_scale_ok (allOkClient app) app reqNs cluster _ _ []
      rfl rfl (scalePods_grow_allOk (allOkClient app) reqNs app
        (getPodList reqNs app.name cluster) cluster h (fun p _ => rfl))
    have hlen2 : (((getPodList reqNs app.name
        (cluster ++ growBatch app reqNs (getPodList reqNs app.name cluster))).length
          : Nat) : Int) = app.size := by
      rw [getPodList_append, List.length_append, growBatch,
        getPodList_createBatch, createBatch_length]
      push_cast
      omega
    have hpass2 := reconcile_scale_ok (allOkClient app) app reqNs
      (cluster ++ growBatch app reqNs (getPodList reqNs app.name cluster)) _ [] []
      rfl rfl (scalePods_noop (allOkClient app) reqNs app _ _ hlen2)
    exact ⟨_, _, hpass1, rfl, hpass2, rfl, rfl, rfl⟩
  · have hpass1 := reconcile_scale_ok (allOkClient app) app reqNs cluster cluster [] []
      rfl rfl (scalePods_noop (allOkClient app) reqNs app
        (getPodList reqNs app.name cluster) cluster h)
    have hpass2 := reconcile_scale_ok (allOkClient app) app reqNs cluster cluster [] []
      rfl rfl (scalePods_noop (allOkClient app) reqNs app
        (getPodList reqNs app.name cluster) cluster h)
    exact ⟨_, _, hpass1, rfl, hpass2, rfl, rfl, rfl⟩
  · have hpass1 := reconcile_scale_ok (allOkClient app) app reqNs cluster _ []
      (shrinkSeq app (getPodList reqNs app.name cluster))
      rfl rfl (scalePods_shrink_allOk (allOkClient app) reqNs app
        (getPodList reqNs app.name cluster) cluster hd h (fun p _ => rfl))
    have hlen2 : (((getPodList reqNs app.name
        (List.foldl applyDelete cluster
          (shrinkSeq app (getPodList reqNs app.name cluster)))).length
          : Nat) : Int) = app.size := by
      rw [foldl_applyDelete_eq_filter, getPodList_filter]
      simp only [shrinkSeq]
      rw [filter_not_any_drop (getPodList reqNs app.name cluster) app.size.toNat hnd,
        List.length_take]
      omega
    have hpass2 := reconcile_scale_ok (allOkClient app) app reqNs
      (List.foldl applyDelete cluster
        (shrinkSeq app (getPodList reqNs app.name cluster))) _ [] []
      rfl rfl (scalePods_noop (allOkClient app) reqNs app _ _ hlen2)
    exact ⟨_, _, hpass1, rfl, hpass2, rfl, rfl, rfl⟩

theorem c7_witness :
    0 ≤ appSize1.size ∧
    ((getPodList "default" appSize1.name
        [mkPod "app" "default" 0, mkPod "app" "default" 1]).map podKey).Nodup ∧
    ∃ r1 r2,
      reconcile (allOkClient appSize1) "default"
          [mkPod "app" "default" 0, mkPod "app" "default" 1] = some r1 ∧
      r1.err = none ∧
      reconcile (allOkClient appSize1) "default" r1.cluster = some r2 ∧
      r2.creates = [] ∧ r2.deletes = [] ∧ r2.err = none :=
  ⟨by decide, by decide,
   c7_second_pass_noop appSize1 "default"
     [mkPod "app" "default" 0, mkPod "app" "default" 1] (by decide) (by decide)⟩

theorem createBatch_zero_map_name (a ns : String) (N : Nat) :
    (createBatch a ns 0 N).map Pod.name =
      (List.range N).map (fun j : Nat => podName a ((j : Nat) : Int)) := by
  rw [createBatch_map_name]
  apply List.map_congr_left
  intro j _
  rw [zero_add]

/-- C6: if a growth pass from M observed units toward desired size N creates
k < N − M units and then fails, a subsequent pass with no other external
change creates exactly the remaining N − M − k units, with names continuing
from index M + k, and all unit names in the resulting store are distinct. -/
theorem c6_partial_growth_resumes (a reqNs : String) (M k N : Nat)
    (st : List String) (cl1 : Client)
    (hget : cl1.getApp =
      Except.ok { name := a, size := ((N : Nat) : Int), statusNodes := st })
    (hlist : cl1.listOk = true)
    (hok : ∀ j : Nat, j < k →
      cl1.createOk (mkPod a reqNs ((M + j : Nat) : Int)) = true)
    (hfail : cl1.createOk (mkPod a reqNs ((M + k : Nat) : Int)) = false)
    (hkN : M + k < N) :
    ∃ r1 r2,
      reconcile cl1 reqNs (createBatch a reqNs 0 M) = some r1 ∧
      r1.creates.length = k ∧
      r1.err = some (PassError.createFailed (mkPod a reqNs ((M + k : Nat) : Int))) ∧
      reconcile (allOkClient { name := a, size := ((N : Nat) : Int), statusNodes := st })
        reqNs r1.cluster = some r2 ∧
      r2.creates.length = N - M - k ∧
      r2.creates.map Pod.name =
        (List.range (N - M - k)).map
          (fun j : Nat => podName a ((M + k + j : Nat) : Int)) ∧
      r2.err = none ∧
      (r2.cluster.map Pod.name).Nodup := by
  have hcastMk : ((M + k : Nat) : Int) = ((M : Nat) : Int) + ((k : Nat) : Int) := by
    push_cast
    ring
  have hL1 : getPodList reqNs a (createBatch a reqNs 0 M) = createBatch a reqNs 0 M :=
    getPodList_createBatch reqNs a 0 M
  -- the batch the first pass attempts
  have hGB1 : growBatch { name := a, size := ((N : Nat) : Int), statusNodes := st }
      reqNs (getPodList reqNs a (createBatch a reqNs 0 M)) =
      createBatch a reqNs ((M : Nat) : Int) (N - M) := by
    simp only [growBatch, hL1, createBatch_length]
    congr 1
    omega
  have hsplit : createBatch a reqNs ((M : Nat) : Int) (N - M) =
      createBatch a reqNs ((M : Nat) : Int) k ++
        createBatch a reqNs (((M : Nat) : Int) + ((k : Nat) : Int)) (N - M - k) := by
    have he : N - M = k + (N - M - k) := by omega
    conv_lhs => rw [he]
    rw [createBatch_append]
  obtain ⟨t, ht⟩ : ∃ t, N - M - k = t + 1 := ⟨N - M - k - 1, by omega⟩
  have hcons : createBatch a reqNs (((M : Nat) : Int) + ((k : Nat) : Int)) (t + 1) =
      mkPod a reqNs (((M : Nat) : Int) + ((k : Nat) : Int)) ::
        createBatch a reqNs ((((M : Nat) : Int) + ((k : Nat) : Int)) + 1) t := rfl
  have hpre : ∀ q ∈ createBatch a reqNs ((M : Nat) : Int) k, cl1.createOk q = true := by
    intro q hq
    rw [createBatch_eq_map] at hq
    simp only [List.mem_map, List.mem_range] at hq
    obtain ⟨j, hj, rfl⟩ := hq
    have hcast : ((M : Nat) : Int) + ((j : Nat) : Int) = ((M + j : Nat) : Int) := by
      push_cast
      ring
    rw [hcast]
    exact hok j hj
  have hfail' : cl1.createOk (mkPod a reqNs (((M : Nat) : Int) + ((k : Nat) : Int))) = false := by
    rw [← hcastMk]
    exact hfail
  have hkpre : okPrefixLen cl1.createOk (createBatch a reqNs ((M : Nat) : Int) (N - M)) = k := by
    rw [hsplit, ht, hcons,
      okPrefixLen_append_fail cl1.createOk (createBatch a reqNs ((M : Nat) : Int) k)
        (mkPod a reqNs (((M : Nat) : Int) + ((k : Nat) : Int)))
        (createBatch a reqNs ((((M : Nat) : Int) + ((k : Nat) : Int)) + 1) t)
        hpre hfail',
      createBatch_length]
  have htake : (createBatch a reqNs ((M : Nat) : Int) (N - M)).take k =
      createBatch a reqNs ((M : Nat) : Int) k := by
    have h0 := List.take_left (createBatch a reqNs ((M : Nat) : Int) k)
      (createBatch a reqNs (((M : Nat) : Int) + ((k : Nat) : Int)) (N - M - k))
    rw [createBatch_length] at h0
    rw [hsplit, h0]
  have hdrop : (createBatch a reqNs ((M : Nat) : Int) (N - M)).drop k =
      createBatch a reqNs (((M : Nat) : Int) + ((k : Nat) : Int)) (N - M - k) := by
    have h0 := List.drop_left (createBatch a reqNs ((M : Nat) : Int) k)
      (createBatch a reqNs (((M : Nat) : Int) + ((k : Nat) : Int)) (N - M - k))
    rw [createBatch_length] at h0
    rw [hsplit, h0]
  have hlen1 : (((getPodList reqNs a (createBatch a reqNs 0 M)).length : Nat) : Int) <
      ({ name := a, size := ((N : Nat) : Int), statusNodes := st } : AppInstance).size := by
    rw [hL1, createBatch_length]
    show ((M : Nat) : Int) < ((N : Nat) : Int)
    omega
  have hscale1 : scalePods cl1 reqNs
      { name := a, size := ((N : Nat) : Int), statusNodes := st }
      (getPodList reqNs a (createBatch a reqNs 0 M)) (createBatch a reqNs 0 M) =
      some (createBatch a reqNs 0 M ++ createBatch a reqNs ((M : Nat) : Int) k,
            createBatch a reqNs ((M : Nat) : Int) k, [],
            some (PassError.createFailed
              (mkPod a reqNs (((M : Nat) : Int) + ((k : Nat) : Int))))) := by
    rw [scalePods_grow_any cl1 reqNs _ _ _ hlen1, hGB1, hkpre, htake, hdrop, ht, hcons]
    rfl
  have hr1 := reconcile_scale_err cl1
    { name := a, size := ((N : Nat) : Int), statusNodes := st } reqNs
    (createBatch a reqNs 0 M)
    (createBatch a reqNs 0 M ++ createBatch a reqNs ((M : Nat) : Int) k)
    (createBatch a reqNs ((M : Nat) : Int) k) []
    (PassError.createFailed (mkPod a reqNs (((M : Nat) : Int) + ((k : Nat) : Int))))
    hget hlist hscale1
  -- the store after the failed pass is the first M + k canonical pods
  have hclu1 : createBatch a reqNs 0 M ++ createBatch a reqNs ((M : Nat) : Int) k =
      createBatch a reqNs 0 (M + k) := by
    have h0 := createBatch_append a reqNs M k 0
    rw [zero_add] at h0
    exact h0.symm
  -- second pass
  have hL2 : getPodList reqNs a (createBatch a reqNs 0 (M + k)) =
      createBatch a reqNs 0 (M + k) := getPodList_createBatch reqNs a 0 (M + k)
  have hlen2 : (((getPodList reqNs a (createBatch a reqNs 0 (M + k))).length : Nat) : Int) <
      ({ name := a, size := ((N : Nat) : Int), statusNodes := st } : AppInstance).size := by
    rw [hL2, createBatch_length]
    show ((M + k : Nat) : Int) < ((N : Nat) : Int)
    omega
  have hGB2 : growBatch { name := a, size := ((N : Nat) : Int), statusNodes := st }
      reqNs (getPodList reqNs a (createBatch a reqNs 0 (M + k))) =
      createBatch a reqNs ((M + k : Nat) : Int) (N - M - k) := by
    simp only [growBatch, hL2, createBatch_length]
    congr 1
    omega
  have hscale2 : scalePods
      (allOkClient { name := a, size := ((N : Nat) : Int), statusNodes := st }) reqNs
      { name := a, size := ((N : Nat) : Int), statusNodes := st }
      (getPodList reqNs a (createBatch a reqNs 0 (M + k))) (createBatch a reqNs 0 (M + k)) =
      some (createBatch a reqNs 0 (M + k) ++
              createBatch a reqNs ((M + k : Nat) : Int) (N - M - k),
            createBatch a reqNs ((M + k : Nat) : Int) (N - M - k), [], none) := by
    rw [scalePods_grow_allOk _ reqNs _ _ _ hlen2 (fun p _ => rfl), hGB2]
  have hr2 := reconcile_scale_ok
    (allOkClient { name := a, size := ((N : Nat) : Int), statusNodes := st })
    { name := a, size := ((N : Nat) : Int), statusNodes := st } reqNs
    (createBatch a reqNs 0 (M + k))
    (createBatch a reqNs 0 (M + k) ++
      createBatch a reqNs ((M + k : Nat) : Int) (N - M - k))
    (createBatch a reqNs ((M + k : Nat) : Int) (N - M - k)) []
    rfl rfl hscale2
  have hclu2 : createBatch a reqNs 0 (M + k) ++
      createBatch a reqNs ((M + k : Nat) : Int) (N - M - k) =
      createBatch a reqNs 0 N := by
    have h0 := createBatch_append a reqNs (M + k) (N - M - k) 0
    rw [zero_add] at h0
    have he : M + k + (N - M - k) = N := by omega
    rw [he] at h0
    exact h0.symm
  have hr2' : reconcile
      (allOkClient { name := a, size := ((N : Nat) : Int), statusNodes := st }) reqNs
      (createBatch a reqNs 0 M ++ createBatch a reqNs ((M : Nat) : Int) k) =
      some { cluster := createBatch a reqNs 0 (M + k) ++
               createBatch a reqNs ((M + k : Nat) : Int) (N - M - k),
             creates := createBatch a reqNs ((M + k : Nat) : Int) (N - M - k),
             deletes := [], listed := true,
             statusAttempt := some (List.map Pod.name
               (getPodList reqNs
                 ({ name := a, size := ((N : Nat) : Int), statusNodes := st } : AppInstance).name
                 (createBatch a reqNs 0 (M + k)))),
             persisted := some (List.map Pod.name
               (getPodList reqNs
                 ({ name := a, size := ((N : Nat) : Int), statusNodes := st } : AppInstance).name
                 (createBatch a reqNs 0 (M + k)))),
             err := none } := by
    rw [hclu1]
    exact hr2
  refine ⟨_, _, hr1, createBatch_length a reqNs k ((M : Nat) : Int), ?_, hr2',
    createBatch_length a reqNs (N - M - k) ((M + k : Nat) : Int), ?_, rfl, ?_⟩
  · show some (PassError.createFailed
      (mkPod a reqNs (((M : Nat) : Int) + ((k : Nat) : Int)))) = _
    rw [hcastMk]
  · show (createBatch a reqNs ((M + k : Nat) : Int) (N - M - k)).map Pod.name = _
    rw [createBatch_map_name]
    apply List.map_congr_left
    intro j _
    congr 1
  · show ((createBatch a reqNs 0 (M + k) ++
      createBatch a reqNs ((M + k : Nat) : Int) (N - M - k)).map Pod.name).Nodup
    rw [hclu2, createBatch_zero_map_name]
    exact podName_range_nodup a N

/-- A client whose Create fails exactly on the pod named `app-pod-2`; used to
witness a partially failed growth pass. -/
def failPod2Client : Client :=
  { getApp := Except.ok { name := "app", size := ((3 : Nat) : Int), statusNodes := [] },
    listOk := true,
    createOk := fun p => p.name != "app-pod-2",
    deleteOk := fun _ => true,
    statusOk := true }

theorem c6_witness :
    (∀ j : Nat, j < 1 →
      failPod2Client.createOk (mkPod "app" "default" ((1 + j : Nat) : Int)) = true) ∧
    failPod2Client.createOk (mkPod "app" "default" ((1 + 1 : Nat) : Int)) = false ∧
    1 + 1 < 3 ∧
    ∃ r1 r2,
      reconcile failPod2Client "default" (createBatch "app" "default" 0 1) = some r1 ∧
      r1.creates.length = 1 ∧
      r1.err = some (PassError.createFailed
        (mkPod "app" "default" ((1 + 1 : Nat) : Int))) ∧
      reconcile (allOkClient { name := "app", size := ((3 : Nat) : Int), statusNodes := [] })
        "default" r1.cluster = some r2 ∧
      r2.creates.length = 3 - 1 - 1 ∧
      r2.creates.map Pod.name =
        (List.range (3 - 1 - 1)).map
          (fun j : Nat => podName "app" ((1 + 1 + j : Nat) : Int)) ∧
      r2.err = none ∧
      (r2.cluster.map Pod.name).Nodup :=
  ⟨fun j hj => by
      have h0 : j = 0 := by omega
      subst h0
      rfl,
   rfl, by omega,
   c6_partial_growth_resumes "app" "default" 1 1 3 [] failPod2Client rfl rfl
     (fun j hj => by
        have h0 : j = 0 := by omega
        subst h0
        rfl)
     rfl (by omega)⟩

end Operator
